import Mathlib

/-!
Verification development for the `lunka` build crate: a shallow embedding of
`src/lib.rs`, `src/platforms.rs` and `src/lua_conf.rs`, with theorems about
the string-define escaping, platform resolution, source assembly, secondary
configuration and dialect selection.
-/

set_option maxRecDepth 4000

/-! ## Characters and Rust-style string primitives -/

/-- The backslash character. -/
def bs : Char := '\\'

/-- The double-quote character. -/
def qu : Char := '"'

/-- Rust `str::replace` with a single-character pattern: every occurrence of
`needle` is replaced by the string `rep`. -/
def replaceChar (needle : Char) (rep : List Char) : List Char → List Char
  | [] => []
  | c :: rest => (if c = needle then rep else [c]) ++ replaceChar needle rep rest

/-- Rust `str::contains` with a string pattern (substring test). -/
def rsContains (s pat : String) : Bool := decide (pat.data <:+: s.data)

/-- Rust `str::ends_with` with a string pattern. -/
def rsEndsWith (s pat : String) : Bool := decide (pat.data <:+ s.data)

/-! ## `Build::define_str` (src/lib.rs lines 114-117)

The Rust code is
`format!("\"{}\"", data.replace('"', "\\\"").replace('\\', "\\\\"))`:
it first replaces every `"` by `\"`, and then replaces every `\` by `\\`
(this includes the backslashes just inserted by the first pass). -/

/-- The escaped text produced by `define_str` before the surrounding quotes:
quote-escaping pass first, backslash-doubling pass second, exactly as the
two chained `replace` calls in the source run. -/
def define_str_escaped (data : List Char) : List Char :=
  replaceChar bs [bs, bs] (replaceChar qu [bs, qu] data)

/-- The full define value produced by `define_str`: the escaped text wrapped
in double quotes, as by `format!("\"{}\"", ...)`. -/
def define_str_value (data : List Char) : List Char :=
  qu :: define_str_escaped data ++ [qu]

/-- Escaping in the order the specification states (for comparison with
`define_str_escaped`, which embeds the source): first double every
backslash, then escape every double quote. -/
def spec_order_escaped (data : List Char) : List Char :=
  replaceChar qu [bs, qu] (replaceChar bs [bs, bs] data)

/-! ## A C string-literal reader

`cLitBody` consumes the body of a C string literal after its opening quote,
understanding the `\\` and `\"` escape sequences, and returns the decoded
content together with the characters remaining after the closing quote.
`cTokensDecode` reads a whole define value as a sequence of adjacent string
literals and concatenates their contents (C adjacent-literal concatenation);
it returns `none` when the text is not a sequence of complete literals. -/

def cLitBody : List Char → Option (List Char × List Char)
  | [] => none
  | c :: rest =>
    if c = qu then some ([], rest)
    else if c = bs then
      match rest with
      | [] => none
      | d :: rest2 =>
        if d = qu || d = bs then
          match cLitBody rest2 with
          | some (content, rem) => some (d :: content, rem)
          | none => none
        else none
    else
      match cLitBody rest with
      | some (content, rem) => some (c :: content, rem)
      | none => none

/-- Read one complete C string literal, returning its content and the rest. -/
def cLexLit : List Char → Option (List Char × List Char)
  | c :: rest => if c = qu then cLitBody rest else none
  | [] => none

def cTokensDecodeAux : Nat → List Char → Option (List Char)
  | _, [] => some []
  | 0, _ :: _ => none
  | fuel + 1, c :: cs =>
    match cLexLit (c :: cs) with
    | some (content, rem) =>
      match cTokensDecodeAux fuel rem with
      | some more => some (content ++ more)
      | none => none
    | none => none

/-- Interpret a define value as C does: a sequence of string literals,
concatenated. -/
def cTokensDecode (l : List Char) : Option (List Char) :=
  cTokensDecodeAux l.length l

/-! ## Platform descriptors (src/platforms.rs) -/

/-- `Standards`: one optional C-dialect string per compiler family. -/
structure Standards where
  gnu : Option String
  clang : Option String
  msvc : Option String
  clang_cl : Option String
deriving DecidableEq, Repr

/-- The default `STANDARDS` record of `ConstPlatform`. -/
def defaultStandards : Standards :=
  { gnu := some "gnu99", clang := some "gnu99",
    msvc := some "c99", clang_cl := some "gnu99" }

/-- `DynPlatform`: the data of a platform, its defines and standards. -/
structure DynPlatform where
  defines : List String
  standards : Standards
deriving DecidableEq, Repr

def Aix : DynPlatform :=
  { defines := ["LUA_USE_POSIX", "LUA_USE_DLOPEN"], standards := defaultStandards }

def Bsd : DynPlatform :=
  { defines := ["LUA_USE_POSIX", "LUA_USE_DLOPEN"], standards := defaultStandards }

def C89 : DynPlatform :=
  { defines := ["LUA_USE_POSIX", "LUA_USE_DLOPEN"],
    standards :=
      { gnu := some "c89", clang := some "c89", msvc := none, clang_cl := some "c89" } }

def FreeBsd : DynPlatform :=
  { defines := ["LUA_USE_LINUX"], standards := defaultStandards }

def Ios : DynPlatform :=
  { defines := ["LUA_USE_IOS"], standards := defaultStandards }

def Linux : DynPlatform :=
  { defines := ["LUA_USE_LINUX"], standards := defaultStandards }

def MacOsX : DynPlatform :=
  { defines := ["LUA_USE_MACOSX"], standards := defaultStandards }

def MinGw : DynPlatform :=
  { defines := ["LUA_BUILD_AS_DLL"], standards := defaultStandards }

def Posix : DynPlatform :=
  { defines := ["LUA_USE_POSIX"], standards := defaultStandards }

def Solaris : DynPlatform :=
  { defines := ["LUA_USE_POSIX", "LUA_USE_DLOPEN", "_REENTRANT"],
    standards := defaultStandards }

def Windows : DynPlatform :=
  { defines := ["LUA_USE_WINDOWS"], standards := defaultStandards }

/-- The eleven predefined platforms. -/
def allPlatforms : List DynPlatform :=
  [Aix, Bsd, C89, FreeBsd, Ios, Linux, MacOsX, MinGw, Posix, Solaris, Windows]

/-- `from_target_triple` (src/platforms.rs lines 176-192). -/
def from_target_triple (target : String) : Option DynPlatform :=
  if rsContains target "linux" then some Linux
  else if rsEndsWith target "bsd" then some FreeBsd
  else if rsEndsWith target "apple-darwin" then some MacOsX
  else if rsEndsWith target "apple-ios" then some Ios
  else if rsEndsWith target "solaris" then some Solaris
  else if rsContains target "windows" then some Windows
  else none

/-! ## Source assembly (src/lib.rs lines 131-147 and 173-192)

The filesystem collaborator is modelled by the data the Rust code reads from
it: `read_dir` yields either an error or a list of items; each item is either
an error (`result?` fails) or a directory entry whose `file_type()` call is
itself fallible and whose `path()`/`file_name().to_str()` give a path string
and an optional text name.  The builder's mutable `cc` accumulator is
modelled by `BuildFiles`, threaded explicitly; since the Rust methods mutate
`&mut self` in place, each embedded operation returns the result of the call
together with the final accumulator state. -/

/-- I/O error token (only its identity matters). -/
structure IoErr where
  code : Nat
deriving DecidableEq, Repr

instance instDecEqExcept {ε α : Type} [DecidableEq ε] [DecidableEq α] :
    DecidableEq (Except ε α) := fun a b =>
  match a, b with
  | .error e, .error f =>
    if h : e = f then .isTrue (congrArg Except.error h)
    else .isFalse (fun hh => h (Except.error.inj hh))
  | .ok x, .ok y =>
    if h : x = y then .isTrue (congrArg Except.ok h)
    else .isFalse (fun hh => h (Except.ok.inj hh))
  | .error _, .ok _ => .isFalse (fun hh => Except.noConfusion hh)
  | .ok _, .error _ => .isFalse (fun hh => Except.noConfusion hh)

/-- `std::fs::FileType` classification, as the code consumes it. -/
inductive FileType where
  | file
  | dir
  | other
deriving DecidableEq, Repr

/-- One item yielded by the `read_dir` iterator. -/
inductive EntryResult where
  /-- The iterator item itself is `Err`. -/
  | err (e : IoErr)
  /-- A directory entry: its fallible `file_type()`, its `path()`, and its
  `file_name().to_str()` (none when the name is not valid text). -/
  | entry (ftype : Except IoErr FileType) (path : String) (name : Option String)
deriving DecidableEq, Repr

/-- A directory entry whose `file_type()` call succeeds. -/
structure CleanEntry where
  ftype : FileType
  path : String
  name : Option String
deriving DecidableEq, Repr

def CleanEntry.toEntry (c : CleanEntry) : EntryResult :=
  .entry (.ok c.ftype) c.path c.name

/-- The file/include accumulation inside the wrapped `cc::Build`. -/
structure BuildFiles where
  includes : List String
  files : List String
deriving DecidableEq, Repr

/-- The `BINARIES` constant of `try_add_lua_src`: the two executable
entry-point filenames. -/
def BINARIES : List String := ["lua.c", "luac.c"]

/-- Loop body of `try_add_lua_src` (src/lib.rs lines 175-190): skip
non-regular entries, skip names that are not text, skip names not ending in
`.c` or matching one of `BINARIES`, add the rest. -/
def try_add_lua_src_loop : List EntryResult → BuildFiles →
    Except IoErr Unit × BuildFiles
  | [], st => (.ok (), st)
  | .err e :: _, st => (.error e, st)
  | .entry ftype path name :: rest, st =>
    match ftype with
    | .error e => (.error e, st)
    | .ok FileType.file =>
      match name with
      | none => try_add_lua_src_loop rest st
      | some n =>
        if !(rsEndsWith n ".c") || BINARIES.contains n then
          try_add_lua_src_loop rest st
        else try_add_lua_src_loop rest { st with files := st.files ++ [path] }
    | .ok _ => try_add_lua_src_loop rest st

/-- `Build::try_add_lua_src` (src/lib.rs lines 173-192): the `read_dir`
result is consumed by the loop; a `read_dir` error propagates at once. -/
def try_add_lua_src (readDir : Except IoErr (List EntryResult))
    (st : BuildFiles) : Except IoErr Unit × BuildFiles :=
  match readDir with
  | .error e => (.error e, st)
  | .ok entries => try_add_lua_src_loop entries st

/-- Loop body of `try_add_lunka_src` (src/lib.rs lines 139-145): no name or
extension test, every regular file's path is added. -/
def try_add_lunka_src_loop : List EntryResult → BuildFiles →
    Except IoErr Unit × BuildFiles
  | [], st => (.ok (), st)
  | .err e :: _, st => (.error e, st)
  | .entry ftype path _ :: rest, st =>
    match ftype with
    | .error e => (.error e, st)
    | .ok FileType.file =>
      try_add_lunka_src_loop rest { st with files := st.files ++ [path] }
    | .ok _ => try_add_lunka_src_loop rest st

/-- `Build::try_add_lunka_src` (src/lib.rs lines 131-147): the bundled
tree's `include` subdirectory is registered as an include path before the
`src` subdirectory is read. -/
def try_add_lunka_src (includeDir : String)
    (readDir : Except IoErr (List EntryResult))
    (st : BuildFiles) : Except IoErr Unit × BuildFiles :=
  let st1 : BuildFiles := { st with includes := st.includes ++ [includeDir] }
  match readDir with
  | .error e => (.error e, st1)
  | .ok entries => try_add_lunka_src_loop entries st1

/-- The pure filter of `try_add_lua_src`: regular file, text name, `.c`
extension, not one of the two entry-point files. -/
def lua_src_keep (c : CleanEntry) : Bool :=
  match c.ftype, c.name with
  | FileType.file, some n => rsEndsWith n ".c" && !(BINARIES.contains n)
  | _, _ => false

/-- The pure filter of `try_add_lunka_src`: every regular file, regardless
of its name. -/
def lunka_src_keep (c : CleanEntry) : Bool :=
  match c.ftype with
  | FileType.file => true
  | _ => false

/-! ## Defines, `LuaConf` and `Build::lua_conf` (src/lua_conf.rs, src/lib.rs
lines 266-280) -/

/-- One accumulated preprocessor define: a bare flag or a name with a
literal value, as `cc.define(name, None)` / `cc.define(name, Some(v))`. -/
inductive Define where
  | flag (name : String)
  | lit (name : String) (value : String)
deriving DecidableEq, Repr

/-- `LuaConf` (src/lua_conf.rs lines 21-39), with `S` instantiated to
`String`. -/
structure LuaConf where
  no_number_to_string : Bool
  no_string_to_number : Bool
  extra_space : Option String
  id_size : Option String
deriving DecidableEq, Repr

/-- `Build::lua_conf` (src/lib.rs lines 266-280), as its effect on the
accumulated define list. -/
def lua_conf (c : LuaConf) (defines : List Define) : List Define :=
  let d1 := if c.no_number_to_string
    then defines ++ [Define.flag "LUNKA_NOCVTN2S"] else defines
  let d2 := if c.no_string_to_number
    then d1 ++ [Define.flag "LUNKA_NOCVTS2N"] else d1
  let d3 := match c.extra_space with
    | some s => d2 ++ [Define.lit "LUNKA_EXTRASPACE" s]
    | none => d2
  match c.id_size with
  | some s => d3 ++ [Define.lit "LUNKA_IDSIZE" s]
  | none => d3

/-! ## `Build::try_new` and dialect selection (src/lib.rs lines 48-75) -/

/-- Modelled from the spec: the toolchain collaborator's compiler-family
detection is external to this repository (the `cc` crate's
`try_get_compiler`); per the spec's external-interface contract it yields
exactly one of four families (GNU-like, Clang-like, MSVC-like,
Clang-in-MSVC-mode). -/
inductive ToolFamily where
  | gnu
  | clang
  | msvc
  | clang_cl
deriving DecidableEq, Repr

/-- Modelled from the spec: `Tool::is_like_gnu` recognizes exactly the
GNU-like family. -/
def is_like_gnu : ToolFamily → Bool
  | .gnu => true
  | _ => false

/-- Modelled from the spec: `Tool::is_like_clang` recognizes exactly the
Clang-like family. -/
def is_like_clang : ToolFamily → Bool
  | .clang => true
  | _ => false

/-- Modelled from the spec: `Tool::is_like_msvc` recognizes exactly the
MSVC-like family. -/
def is_like_msvc : ToolFamily → Bool
  | .msvc => true
  | _ => false

/-- Modelled from the spec: `Tool::is_like_clang_cl` recognizes exactly the
Clang-in-MSVC-mode family. -/
def is_like_clang_cl : ToolFamily → Bool
  | .clang_cl => true
  | _ => false

/-- Toolchain-detection error token. -/
structure CcErr where
  code : Nat
deriving DecidableEq, Repr

/-- The state of the wrapped `cc::Build` that `try_new` configures. -/
structure CcBuild where
  std : Option String
  warnings : Bool
  extra_warnings : Bool
  defines : List Define
deriving DecidableEq, Repr

/-- `cc::Build::new()`: nothing requested yet. -/
def CcBuild.new : CcBuild :=
  { std := none, warnings := false, extra_warnings := false, defines := [] }

/-- The dialect-selection chain inside `try_new` (src/lib.rs lines 54-64):
`set_std` applied to the matched family's field, or no call at all. -/
def select_std (tool : ToolFamily) (stds : Standards) : Option String :=
  if is_like_gnu tool then stds.gnu
  else if is_like_clang tool then stds.clang
  else if is_like_msvc tool then stds.msvc
  else if is_like_clang_cl tool then stds.clang_cl
  else none

/-- The `Standards` field belonging to a compiler family. -/
def family_field (tool : ToolFamily) (stds : Standards) : Option String :=
  match tool with
  | .gnu => stds.gnu
  | .clang => stds.clang
  | .msvc => stds.msvc
  | .clang_cl => stds.clang_cl

/-- `Build::try_new` (src/lib.rs lines 48-75): propagate a toolchain error,
otherwise select the dialect, enable warnings, and apply the platform's
defines as flags. -/
def try_new (toolResult : Except CcErr ToolFamily) (p : DynPlatform) :
    Except CcErr CcBuild :=
  match toolResult with
  | .error e => .error e
  | .ok tool =>
    let cc := CcBuild.new
    let cc := match select_std tool p.standards with
      | some s => { cc with std := some s }
      | none => cc
    let cc := { cc with warnings := true, extra_warnings := true }
    .ok { cc with defines := cc.defines ++ p.defines.map Define.flag }

/-! ## Supporting lemmas: the spec-order escaping does round-trip -/

theorem replaceChar_append (n : Char) (r a b : List Char) :
    replaceChar n r (a ++ b) = replaceChar n r a ++ replaceChar n r b := by
  induction a with
  | nil => rfl
  | cons c rest ih => simp [replaceChar, ih]

theorem spec_order_escaped_cons (c : Char) (d : List Char) :
    spec_order_escaped (c :: d) =
      (if c = bs then [bs, bs] else if c = qu then [bs, qu] else [c])
        ++ spec_order_escaped d := by
  have hbq : ¬ (bs = qu) := by decide
  by_cases hb : c = bs
  · subst hb
    simp [spec_order_escaped, replaceChar, replaceChar_append, hbq]
  · by_cases hq : c = qu
    · subst hq
      simp [spec_order_escaped, replaceChar, replaceChar_append, hb]
    · simp [spec_order_escaped, replaceChar, replaceChar_append, hb, hq]

theorem cLitBody_quote (rest : List Char) :
    cLitBody (qu :: rest) = some ([], rest) := by
  rw [cLitBody.eq_def]
  simp

theorem cLitBody_other (c : Char) (rest : List Char) (hq : ¬ c = qu)
    (hb : ¬ c = bs) :
    cLitBody (c :: rest) =
      match cLitBody rest with
      | some (content, rem) => some (c :: content, rem)
      | none => none := by
  rw [cLitBody.eq_def]
  simp [hq, hb]

theorem cLitBody_escape (d : Char) (rest2 : List Char) (hd : d = qu ∨ d = bs) :
    cLitBody (bs :: d :: rest2) =
      match cLitBody rest2 with
      | some (content, rem) => some (d :: content, rem)
      | none => none := by
  have h1 : ¬ (bs = qu) := by decide
  rw [cLitBody.eq_def]
  rcases hd with h | h <;> subst h <;> simp [h1]

theorem cLitBody_spec_order (d rest : List Char) :
    cLitBody (spec_order_escaped d ++ qu :: rest) = some (d, rest) := by
  induction d with
  | nil =>
    rw [show spec_order_escaped [] = [] from rfl, List.nil_append, cLitBody_quote]
  | cons c dd ih =>
    rw [spec_order_escaped_cons]
    by_cases hb : c = bs
    · subst hb
      have hif : (if (bs : Char) = bs then [bs, bs]
          else if bs = qu then [bs, qu] else [bs]) = [bs, bs] := by simp
      rw [hif]
      show cLitBody (bs :: bs :: (spec_order_escaped dd ++ qu :: rest))
        = some (bs :: dd, rest)
      rw [cLitBody_escape bs _ (Or.inr rfl), ih]
    · by_cases hq : c = qu
      · subst hq
        have hif : (if (qu : Char) = bs then [bs, bs]
            else if qu = qu then [bs, qu] else [qu]) = [bs, qu] := by simp [hb]
        rw [hif]
        show cLitBody (bs :: qu :: (spec_order_escaped dd ++ qu :: rest))
          = some (qu :: dd, rest)
        rw [cLitBody_escape qu _ (Or.inl rfl), ih]
      · have hif : (if c = bs then [bs, bs]
            else if c = qu then [bs, qu] else [c]) = [c] := by simp [hb, hq]
        rw [hif]
        show cLitBody (c :: (spec_order_escaped dd ++ qu :: rest))
          = some (c :: dd, rest)
        rw [cLitBody_other c _ hq hb, ih]

/-- Escaping in the order the specification prescribes (backslash doubling
first, then quote escaping) round-trips through the C string-literal reader
for every input text. -/
theorem spec_order_escape_roundtrips (d : List Char) :
    cTokensDecode (qu :: spec_order_escaped d ++ [qu]) = some d := by
  have hbody := cLitBody_spec_order d []
  unfold cTokensDecode
  have hlen : (qu :: spec_order_escaped d ++ [qu]).length
      = ((spec_order_escaped d).length + 1) + 1 := by simp
  rw [hlen]
  simp [cTokensDecodeAux, cLexLit, hbody]

/-! ## Claim theorems C1-C4 -/

/-- C1: the claim states that `define_str` output, interpreted as C string
literals, reproduces the original text for any mix of quotes and
backslashes.  The code runs its two `replace` passes in the reverse of the
spec's order, so for the one-character input `"` it emits the five
characters `"\\""`, which the C reader cannot interpret as literal text at
all (let alone as the original `"`): the spec is the intent and the code's
pass order is the slip, as `spec_order_escape_roundtrips` shows. -/
theorem c1_define_str_roundtrip_fails_on_quote :
    define_str_value [qu] = [qu, bs, bs, qu, qu]
      ∧ cTokensDecode (define_str_value [qu]) = none
      ∧ ¬ cTokensDecode (define_str_value [qu]) = some [qu] := by decide

/-- C2: the claim states the escaping is done by first doubling every
backslash and then escaping every double quote, so that quote-escaping
backslashes are never doubled.  The source runs the passes in the opposite
order: on input `"` it produces `\\"` (the quote-escaping backslash got
doubled), while the claimed order produces `\"`. -/
theorem c2_escape_pass_order_reversed :
    define_str_escaped [qu] = [bs, bs, qu]
      ∧ spec_order_escaped [qu] = [bs, qu]
      ∧ ¬ define_str_escaped [qu] = spec_order_escaped [qu] := by decide

/-- C3 counterexample: `"sparc-sun-solaris2.11"` does not end with
`"solaris"` (it ends with `"solaris2.11"`), so `from_target_triple` resolves
it to no platform, not to the Solaris descriptor. -/
theorem c3_counterexample_solaris2_11 :
    rsEndsWith "sparc-sun-solaris2.11" "solaris" = false
      ∧ from_target_triple "sparc-sun-solaris2.11" = none
      ∧ ¬ from_target_triple "sparc-sun-solaris2.11" = some Solaris := by decide

/-- C3 amended: a triple that does end with `"solaris"`, such as the Rust
target triple `"sparcv9-sun-solaris"`, resolves to the Solaris descriptor
with defines `LUA_USE_POSIX`, `LUA_USE_DLOPEN`, `_REENTRANT`. -/
theorem c3_amended_solaris_suffix :
    rsEndsWith "sparcv9-sun-solaris" "solaris" = true
      ∧ from_target_triple "sparcv9-sun-solaris" = some Solaris
      ∧ Solaris.defines = ["LUA_USE_POSIX", "LUA_USE_DLOPEN", "_REENTRANT"] := by
  decide

/-- C4: the ordered first-match resolver sends
`"x86_64-unknown-linux-gnu"` to Linux, `"x86_64-pc-windows-msvc"` to
Windows, `"aarch64-apple-darwin"` to macOS, and
`"unknown-unknown-unknown"` to no platform. -/
theorem c4_triple_resolution_examples :
    from_target_triple "x86_64-unknown-linux-gnu" = some Linux
      ∧ from_target_triple "x86_64-pc-windows-msvc" = some Windows
      ∧ from_target_triple "aarch64-apple-darwin" = some MacOsX
      ∧ from_target_triple "unknown-unknown-unknown" = none := by decide

/-! ## Supporting lemmas: source-assembly loops on error-free listings and
on listings that fail partway -/

theorem try_add_lua_src_loop_clean (items : List CleanEntry) (st : BuildFiles) :
    try_add_lua_src_loop (items.map CleanEntry.toEntry) st
      = (Except.ok (),
         { includes := st.includes,
           files := st.files ++ (items.filter lua_src_keep).map CleanEntry.path }) := by
  induction items generalizing st with
  | nil => simp [try_add_lua_src_loop]
  | cons i rest ih =>
    obtain ⟨t, path, name⟩ := i
    cases t with
    | file =>
      cases name with
      | none =>
        simp [CleanEntry.toEntry, try_add_lua_src_loop, lua_src_keep, ih]
      | some n =>
        by_cases h2 : n ∈ BINARIES
        · have h2c : BINARIES.contains n = true := by simpa using h2
          cases h1 : rsEndsWith n ".c" <;>
            simp [CleanEntry.toEntry, try_add_lua_src_loop, lua_src_keep,
              h1, h2, h2c, ih]
        · have h2c : BINARIES.contains n = false := by simpa using h2
          cases h1 : rsEndsWith n ".c" <;>
            simp [CleanEntry.toEntry, try_add_lua_src_loop, lua_src_keep,
              h1, h2, h2c, ih]
    | dir => simp [CleanEntry.toEntry, try_add_lua_src_loop, lua_src_keep, ih]
    | other => simp [CleanEntry.toEntry, try_add_lua_src_loop, lua_src_keep, ih]

theorem try_add_lua_src_loop_stops (good : List CleanEntry) (e : IoErr)
    (rest : List EntryResult) (st : BuildFiles) :
    try_add_lua_src_loop (good.map CleanEntry.toEntry ++ EntryResult.err e :: rest) st
      = (Except.error e,
         { includes := st.includes,
           files := st.files ++ (good.filter lua_src_keep).map CleanEntry.path }) := by
  induction good generalizing st with
  | nil => simp [try_add_lua_src_loop]
  | cons i g ih =>
    obtain ⟨t, path, name⟩ := i
    cases t with
    | file =>
      cases name with
      | none =>
        simp [CleanEntry.toEntry, try_add_lua_src_loop, lua_src_keep, ih]
      | some n =>
        by_cases h2 : n ∈ BINARIES
        · have h2c : BINARIES.contains n = true := by simpa using h2
          cases h1 : rsEndsWith n ".c" <;>
            simp [CleanEntry.toEntry, try_add_lua_src_loop, lua_src_keep,
              h1, h2, h2c, ih]
        · have h2c : BINARIES.contains n = false := by simpa using h2
          cases h1 : rsEndsWith n ".c" <;>
            simp [CleanEntry.toEntry, try_add_lua_src_loop, lua_src_keep,
              h1, h2, h2c, ih]
    | dir => simp [CleanEntry.toEntry, try_add_lua_src_loop, lua_src_keep, ih]
    | other => simp [CleanEntry.toEntry, try_add_lua_src_loop, lua_src_keep, ih]

theorem try_add_lunka_src_loop_clean (items : List CleanEntry) (st : BuildFiles) :
    try_add_lunka_src_loop (items.map CleanEntry.toEntry) st
      = (Except.ok (),
         { includes := st.includes,
           files := st.files ++ (items.filter lunka_src_keep).map CleanEntry.path }) := by
  induction items generalizing st with
  | nil => simp [try_add_lunka_src_loop]
  | cons i rest ih =>
    obtain ⟨t, path, name⟩ := i
    cases t <;>
      simp [CleanEntry.toEntry, try_add_lunka_src_loop, lunka_src_keep, ih]

theorem try_add_lunka_src_loop_stops (good : List CleanEntry) (e : IoErr)
    (rest : List EntryResult) (st : BuildFiles) :
    try_add_lunka_src_loop (good.map CleanEntry.toEntry ++ EntryResult.err e :: rest) st
      = (Except.error e,
         { includes := st.includes,
           files := st.files ++ (good.filter lunka_src_keep).map CleanEntry.path }) := by
  induction good generalizing st with
  | nil => simp [try_add_lunka_src_loop]
  | cons i g ih =>
    obtain ⟨t, path, name⟩ := i
    cases t <;>
      simp [CleanEntry.toEntry, try_add_lunka_src_loop, lunka_src_keep, ih]

/-! ## Claim theorems C5-C10 -/

/-- C5: on an error-free listing, `try_add_lua_src` adds exactly the
regular-file entries whose name is valid text, ends in `.c`, and is neither
`lua.c` nor `luac.c`; in particular the directory with `foo.c`, `bar.h`,
`lua.c`, `luac.c` and subdirectory `sub` contributes exactly `foo.c`. -/
theorem c5_lua_src_filter :
    (∀ (items : List CleanEntry) (st : BuildFiles),
      try_add_lua_src (Except.ok (items.map CleanEntry.toEntry)) st
        = (Except.ok (),
           { includes := st.includes,
             files := st.files
               ++ (items.filter lua_src_keep).map CleanEntry.path }))
      ∧ try_add_lua_src (Except.ok
            [(CleanEntry.mk FileType.file "foo.c" (some "foo.c")).toEntry,
             (CleanEntry.mk FileType.file "bar.h" (some "bar.h")).toEntry,
             (CleanEntry.mk FileType.file "lua.c" (some "lua.c")).toEntry,
             (CleanEntry.mk FileType.file "luac.c" (some "luac.c")).toEntry,
             (CleanEntry.mk FileType.dir "sub" (some "sub")).toEntry])
          { includes := [], files := [] }
        = (Except.ok (), { includes := [], files := ["foo.c"] }) := by
  constructor
  · intro items st
    simpa [try_add_lua_src] using try_add_lua_src_loop_clean items st
  · decide

/-- C6 counterexample: after the first entry (`foo.c`) is added, the second
iterator item fails; the call returns the error, but the configuration's
file list now holds `foo.c` — it is not unchanged, so the assembly is not
all-or-nothing. -/
theorem c6_counterexample_files_kept_on_error :
    try_add_lua_src (Except.ok
        [(CleanEntry.mk FileType.file "foo.c" (some "foo.c")).toEntry,
         EntryResult.err ⟨13⟩])
      { includes := [], files := [] }
      = (Except.error ⟨13⟩, { includes := [], files := ["foo.c"] })
      ∧ ¬ ({ includes := [], files := ["foo.c"] } : BuildFiles)
          = { includes := [], files := [] } := by decide

/-- C6 amended: when an iterator item fails partway through either source
assembly, the operation aborts at once (later entries are never examined),
the I/O error is surfaced, and the files accepted before the error remain
in the configuration — the mutation is not rolled back. -/
theorem c6_amended_abort_keeps_prior_files :
    (∀ (good : List CleanEntry) (e : IoErr) (rest : List EntryResult)
        (st : BuildFiles),
      try_add_lua_src
          (Except.ok (good.map CleanEntry.toEntry ++ EntryResult.err e :: rest)) st
        = (Except.error e,
           { includes := st.includes,
             files := st.files
               ++ (good.filter lua_src_keep).map CleanEntry.path }))
      ∧ (∀ (good : List CleanEntry) (e : IoErr) (rest : List EntryResult)
          (st : BuildFiles) (incl : String),
        try_add_lunka_src incl
            (Except.ok (good.map CleanEntry.toEntry ++ EntryResult.err e :: rest)) st
          = (Except.error e,
             { includes := st.includes ++ [incl],
               files := st.files
                 ++ (good.filter lunka_src_keep).map CleanEntry.path })) := by
  constructor
  · intro good e rest st
    simpa [try_add_lua_src] using try_add_lua_src_loop_stops good e rest st
  · intro good e rest st incl
    simpa [try_add_lunka_src] using
      try_add_lunka_src_loop_stops good e rest
        { st with includes := st.includes ++ [incl] }

/-- C7: `try_add_lunka_src` registers the bundled tree's `include`
subdirectory as an include path (and never as a source file), and adds
every regular file of the `src` listing with no extension filtering; in
particular `lapi.c`, `lapi.h` and `lauxlib.c` are all added. -/
theorem c7_lunka_src_assembly :
    (∀ (items : List CleanEntry) (incl : String) (st : BuildFiles),
      try_add_lunka_src incl (Except.ok (items.map CleanEntry.toEntry)) st
        = (Except.ok (),
           { includes := st.includes ++ [incl],
             files := st.files
               ++ (items.filter lunka_src_keep).map CleanEntry.path }))
      ∧ try_add_lunka_src "lua-5.4.8/include" (Except.ok
            [(CleanEntry.mk FileType.file "lua-5.4.8/src/lapi.c" (some "lapi.c")).toEntry,
             (CleanEntry.mk FileType.file "lua-5.4.8/src/lapi.h" (some "lapi.h")).toEntry,
             (CleanEntry.mk FileType.file "lua-5.4.8/src/lauxlib.c" (some "lauxlib.c")).toEntry])
          { includes := [], files := [] }
        = (Except.ok (),
           { includes := ["lua-5.4.8/include"],
             files := ["lua-5.4.8/src/lapi.c", "lua-5.4.8/src/lapi.h",
               "lua-5.4.8/src/lauxlib.c"] })
      ∧ ¬ "lua-5.4.8/include"
          ∈ (["lua-5.4.8/src/lapi.c", "lua-5.4.8/src/lapi.h",
              "lua-5.4.8/src/lauxlib.c"] : List String) := by
  refine ⟨?_, by decide, by decide⟩
  intro items incl st
  simpa [try_add_lunka_src] using
    try_add_lunka_src_loop_clean items
      { st with includes := st.includes ++ [incl] }

/-- C8: `lua_conf` adds defines independently per field: each true boolean
adds exactly its one flag define, each present optional string adds exactly
its one literal define, false or absent fields add nothing; with only
`extra_space` set, exactly one literal define is added. -/
theorem c8_lua_conf_per_field :
    (∀ (c : LuaConf) (ds : List Define),
      lua_conf c ds = ds
        ++ (if c.no_number_to_string then [Define.flag "LUNKA_NOCVTN2S"] else [])
        ++ (if c.no_string_to_number then [Define.flag "LUNKA_NOCVTS2N"] else [])
        ++ (match c.extra_space with
            | some s => [Define.lit "LUNKA_EXTRASPACE" s]
            | none => [])
        ++ (match c.id_size with
            | some s => [Define.lit "LUNKA_IDSIZE" s]
            | none => []))
      ∧ lua_conf ⟨false, false, some "64", none⟩ []
          = [Define.lit "LUNKA_EXTRASPACE" "64"] := by
  constructor
  · intro c ds
    obtain ⟨b1, b2, e, i⟩ := c
    cases b1 <;> cases b2 <;> cases e <;> cases i <;> simp [lua_conf]
  · decide

/-- C9: `try_new` reads exactly the `Standards` field of the detected
compiler family (the toolchain families are exclusive per the spec's
external-interface contract): the resulting dialect request equals that
field, so an empty field requests no dialect and no other family's field is
ever consulted — in particular an MSVC-like compiler gets `standards.msvc`,
never the GNU string. -/
theorem c9_try_new_dialect_by_family :
    ∀ (tool : ToolFamily) (p : DynPlatform),
      try_new (Except.ok tool) p
        = Except.ok
            { std := family_field tool p.standards,
              warnings := true, extra_warnings := true,
              defines := p.defines.map Define.flag } := by
  intro tool p
  have hsel : select_std tool p.standards = family_field tool p.standards := by
    cases tool <;> rfl
  cases h : family_field tool p.standards <;>
    simp [try_new, hsel, h, CcBuild.new]

/-- C10: every descriptor reachable through `from_target_triple` carries the
default standards record and is one of the Linux, FreeBSD, macOS, iOS,
Solaris or Windows descriptors; among the eleven predefined platforms, C89
is the only one whose standards record is not the default, and it (like
Aix, Bsd, MinGw and Posix) is never produced by triple resolution. -/
theorem c10_triple_resolution_range :
    (∀ (target : String) (d : DynPlatform),
      from_target_triple target = some d →
        d.standards = defaultStandards
          ∧ (d = Linux ∨ d = FreeBsd ∨ d = MacOsX ∨ d = Ios ∨ d = Solaris
              ∨ d = Windows))
      ∧ (∀ p ∈ allPlatforms, (p.standards = defaultStandards ↔ ¬ p = C89)) := by
  constructor
  · intro target d h
    unfold from_target_triple at h
    repeat' split at h
    all_goals first
      | (injection h with h2; subst h2; exact ⟨by decide, by decide⟩)
      | simp at h
  · decide

/-- Witness for C10: applying the range theorem at the Linux triple. -/
theorem c10_triple_resolution_range_witness :
    Linux.standards = defaultStandards
      ∧ (Linux = Linux ∨ Linux = FreeBsd ∨ Linux = MacOsX ∨ Linux = Ios
          ∨ Linux = Solaris ∨ Linux = Windows) :=
  c10_triple_resolution_range.1 "x86_64-unknown-linux-gnu" Linux (by decide)
